import Mathlib

/-!
Verification of the sante-express ingestion/reconciliation/archival pipeline.

Shallow embedding of the Python sources:
  * `src/app/utils/encoding_utils.py`   (text normalization)
  * `src/app/utils/data_validation.py`  (validators, urgences processing)
  * `src/app/core/scheduler.py`         (DataUpdater: resolver, archival, backfill)
  * `src/scripts/data_updater.py`       (standalone DataUpdater variant)
  * `src/scripts/fix_tables.py`         (standalone null backfill)

Texts are `List Char`; real-number fields are modelled exactly with `Rat`
(the Python code uses binary floats; every quantity the claims mention is
an exact decimal, so the rational model is faithful for them).  Database
rows are records, tables are lists, and SQLAlchemy `query(...).first()` is
`List.find?` (first result of the unspecified underlying ordering).
-/

namespace SanteExpress

abbrev Str := List Char

/-! ## Character classes (Python `re` classes restricted to the Latin
letters that occur in this domain) -/

/-- Python whitespace class, the characters relevant to the feed. -/
def isSpaceChar (c : Char) : Bool :=
  c == ' ' || c == '\t' || c == '\n' || c == '\r' || c == '\x0c' || c == '\x0b'

/-- Accented Latin letters used by the feed (lowercase forms) with their
base letters. -/
def accentTable : List (Char × Char) :=
  [('à','a'), ('â','a'), ('ä','a'), ('é','e'), ('è','e'), ('ê','e'), ('ë','e'),
   ('î','i'), ('ï','i'), ('ô','o'), ('ö','o'), ('ù','u'), ('û','u'), ('ü','u'),
   ('ç','c')]

/-- Lowercasing table: ASCII uppercase letters plus the uppercase accented
letters of the domain alphabet (Python `str.lower` restricted to it). -/
def lowerTable : List (Char × Char) :=
  [('A','a'), ('B','b'), ('C','c'), ('D','d'), ('E','e'), ('F','f'), ('G','g'),
   ('H','h'), ('I','i'), ('J','j'), ('K','k'), ('L','l'), ('M','m'), ('N','n'),
   ('O','o'), ('P','p'), ('Q','q'), ('R','r'), ('S','s'), ('T','t'), ('U','u'),
   ('V','v'), ('W','w'), ('X','x'), ('Y','y'), ('Z','z'),
   ('À','à'), ('Â','â'), ('Ä','ä'), ('É','é'), ('È','è'), ('Ê','ê'), ('Ë','ë'),
   ('Î','î'), ('Ï','ï'), ('Ô','ô'), ('Ö','ö'), ('Ù','ù'), ('Û','û'), ('Ü','ü'),
   ('Ç','ç')]

/-- Python `str.lower` on the domain alphabet. -/
def pyLower (c : Char) : Char :=
  (((lowerTable.find? (fun p => p.1 == c)).map Prod.snd).getD c)

/-- Composite of `unicodedata.normalize` into NFD and dropping the combining
marks (category Mn), restricted to the domain alphabet: each accented letter
decomposes into its base letter plus a mark, so the operation is a character
map. -/
def stripAccent (c : Char) : Char :=
  (((accentTable.find? (fun p => p.1 == c)).map Prod.snd).getD c)

/-- Python word class over the domain alphabet: ASCII alphanumerics,
underscore, and the accented letters (which Python counts as word
characters). -/
def isWordChar (c : Char) : Bool :=
  c.isAlphanum || c == '_' ||
    (accentTable.any (fun p => p.1 == c || p.2 == c)) ||
    (lowerTable.any (fun p => p.1 == c))

/-! ## normalize_text (encoding_utils.py lines 67-88) -/

/-- Modelled from the spec: `fix_text_encoding` delegates to the external
library call `ftfy.fix_text`, which is not part of this repository.  The
spec describes Repair as an idempotent best-effort mojibake repair; on
well-encoded text (the embedding alphabet contains no mojibake artifacts)
it is the identity. -/
def fixTextEncoding (s : Str) : Str := s

/-- Substitution of every character that is neither a word character nor
whitespace by a single space (the first regex substitution). -/
def punctToSpace (s : Str) : Str :=
  s.map (fun c => if isWordChar c || isSpaceChar c then c else ' ')

/-- Substitution of each maximal whitespace run by a single space (the
second regex substitution).  The flag records whether the current position
is inside a run whose space has already been emitted. -/
def collapseWsAux : Bool → Str → Str
  | _, [] => []
  | prevSpace, c :: cs =>
    if isSpaceChar c then
      if prevSpace then collapseWsAux true cs
      else ' ' :: collapseWsAux true cs
    else c :: collapseWsAux false cs

def collapseWs (s : Str) : Str := collapseWsAux false s

/-- Python `str.strip()`: drop leading and trailing whitespace. -/
def pyStrip (s : Str) : Str :=
  ((s.dropWhile isSpaceChar).reverse.dropWhile isSpaceChar).reverse

/-- Embedding of `normalize_text(text, remove_accents)` (encoding_utils.py
67-88).  A non-string or NaN input is `none` and yields the empty string. -/
def normalize_text (t : Option Str) (remove_accents : Bool) : Str :=
  match t with
  | none => []
  | some s =>
    let s1 := fixTextEncoding s
    let s2 := s1.map pyLower
    let s3 := if remove_accents then s2.map stripAccent else s2
    pyStrip (collapseWs (punctToSpace s3))

/-! ## Character-level lemmas -/

theorem lowerTable_values_not_keys :
    ∀ p ∈ lowerTable, lowerTable.find? (fun q => q.1 == p.2) = none := by decide

theorem accentTable_values_not_keys :
    ∀ p ∈ accentTable, accentTable.find? (fun q => q.1 == p.2) = none := by decide

theorem accentTable_values_not_lower_keys :
    ∀ p ∈ accentTable, lowerTable.find? (fun q => q.1 == p.2) = none := by decide

theorem lowerTable_values_good :
    ∀ p ∈ lowerTable, isWordChar p.2 = true := by decide

theorem accentTable_values_good :
    ∀ p ∈ accentTable, isWordChar p.2 = true := by decide

theorem pyLower_no_key (c : Char) :
    lowerTable.find? (fun q => q.1 == pyLower c) = none := by
  unfold pyLower
  cases h : lowerTable.find? (fun p => p.1 == c) with
  | none => simpa using h
  | some p =>
    have hmem := List.mem_of_find?_eq_some h
    simpa using lowerTable_values_not_keys p hmem

theorem pyLower_idem (c : Char) : pyLower (pyLower c) = pyLower c := by
  conv_lhs => rw [pyLower]
  rw [pyLower_no_key c]
  rfl

theorem stripAccent_no_key (c : Char) :
    accentTable.find? (fun q => q.1 == stripAccent c) = none := by
  unfold stripAccent
  cases h : accentTable.find? (fun p => p.1 == c) with
  | none => simpa using h
  | some p =>
    have hmem := List.mem_of_find?_eq_some h
    simpa using accentTable_values_not_keys p hmem

theorem stripAccent_idem (c : Char) : stripAccent (stripAccent c) = stripAccent c := by
  conv_lhs => rw [stripAccent]
  rw [stripAccent_no_key c]
  rfl

theorem pyLower_stripAccent (c : Char) :
    pyLower (stripAccent (pyLower c)) = stripAccent (pyLower c) := by
  unfold stripAccent
  cases h : accentTable.find? (fun p => p.1 == pyLower c) with
  | none =>
    simpa using pyLower_idem c
  | some p =>
    have hmem := List.mem_of_find?_eq_some h
    show pyLower p.2 = p.2
    rw [pyLower]
    rw [accentTable_values_not_lower_keys p hmem]
    rfl

theorem space_not_lower_key :
    lowerTable.find? (fun q => q.1 == ' ') = none := by decide

theorem space_not_accent_key :
    accentTable.find? (fun q => q.1 == ' ') = none := by decide

theorem pyLower_space : pyLower ' ' = ' ' := by decide

theorem stripAccent_space : stripAccent ' ' = ' ' := by decide

theorem word_space_disjoint (c : Char) (hs : isSpaceChar c = true)
    (hw : isWordChar c = true) : False := by
  unfold isSpaceChar at hs
  simp only [Bool.or_eq_true, beq_iff_eq] at hs
  rcases hs with ((((h | h) | h) | h) | h) | h <;> subst h <;> revert hw <;> decide

/-! ## String-level lemmas -/

/-- Absence of two consecutive whitespace characters. -/
def NoAdj (l : Str) : Prop :=
  List.Chain' (fun a b => ¬(isSpaceChar a = true ∧ isSpaceChar b = true)) l

/-- Every space character of `l` is the plain space. -/
def SpacesPlain (l : Str) : Prop := ∀ c ∈ l, isSpaceChar c = true → c = ' '

def HeadNotSpace (l : Str) : Prop := ∀ c ∈ l.head?, isSpaceChar c = false

def LastNotSpace (l : Str) : Prop := ∀ c ∈ l.getLast?, isSpaceChar c = false

theorem collapseWsAux_head (l : Str) : HeadNotSpace (collapseWsAux true l) := by
  induction l with
  | nil => intro c hc; simp [collapseWsAux] at hc
  | cons a t ih =>
    intro c hc
    rw [collapseWsAux] at hc
    by_cases h : isSpaceChar a
    · rw [if_pos h, if_pos rfl] at hc
      exact ih c hc
    · rw [if_neg h] at hc
      simp only [List.head?_cons, Option.mem_some_iff] at hc
      subst hc
      simpa using h

theorem collapseWsAux_chain (l : Str) (b : Bool) : NoAdj (collapseWsAux b l) := by
  induction l generalizing b with
  | nil => simp [collapseWsAux, NoAdj]
  | cons a t ih =>
    rw [collapseWsAux]
    by_cases h : isSpaceChar a
    · rw [if_pos h]
      cases b with
      | true => exact ih true
      | false =>
        rw [if_neg (by simp)]
        refine List.chain'_cons'.mpr ⟨?_, ih true⟩
        intro y hy
        have := collapseWsAux_head t y hy
        simp [this]
    · rw [if_neg h]
      refine List.chain'_cons'.mpr ⟨?_, ih false⟩
      intro y _
      simp [h]

theorem collapseWsAux_mem (l : Str) (b : Bool) (c : Char)
    (hc : c ∈ collapseWsAux b l) : c = ' ' ∨ (c ∈ l ∧ isSpaceChar c = false) := by
  induction l generalizing b with
  | nil => simp [collapseWsAux] at hc
  | cons a t ih =>
    rw [collapseWsAux] at hc
    by_cases h : isSpaceChar a
    · rw [if_pos h] at hc
      cases b with
      | true =>
        rcases ih true hc with h1 | ⟨h1, h2⟩
        · exact Or.inl h1
        · exact Or.inr ⟨List.mem_cons_of_mem a h1, h2⟩
      | false =>
        rw [if_neg (by simp)] at hc
        rcases List.mem_cons.mp hc with h1 | h1
        · exact Or.inl h1
        · rcases ih true h1 with h2 | ⟨h2, h3⟩
          · exact Or.inl h2
          · exact Or.inr ⟨List.mem_cons_of_mem a h2, h3⟩
    · rw [if_neg h] at hc
      rcases List.mem_cons.mp hc with h1 | h1
      · subst h1; exact Or.inr ⟨List.mem_cons_self c t, by simpa using h⟩
      · rcases ih false h1 with h2 | ⟨h2, h3⟩
        · exact Or.inl h2
        · exact Or.inr ⟨List.mem_cons_of_mem a h2, h3⟩

theorem collapseWsAux_fixed (l : Str) (b : Bool) (h1 : NoAdj l) (h2 : SpacesPlain l)
    (h3 : b = true → HeadNotSpace l) : collapseWsAux b l = l := by
  induction l generalizing b with
  | nil => rfl
  | cons a t ih =>
    rw [collapseWsAux]
    by_cases h : isSpaceChar a
    · cases b with
      | true =>
        exfalso
        have := h3 rfl a (by simp)
        rw [h] at this
        exact Bool.noConfusion this
      | false =>
        rw [if_pos h, if_neg (by simp)]
        have ha : a = ' ' := h2 a (by simp) h
        subst ha
        congr 1
        refine ih true (h1.tail) (fun c hc hs => h2 c (by simp [hc]) hs) ?_
        intro _ c hc
        have := (List.chain'_cons'.mp h1).1 c hc
        by_contra hne
        exact this ⟨h, by simpa using hne⟩
    · rw [if_neg h]
      congr 1
      exact ih false (h1.tail) (fun c hc hs => h2 c (by simp [hc]) hs) (by simp)

theorem dropWhile_head_not (p : Char → Bool) (l : Str) :
    ∀ c ∈ (l.dropWhile p).head?, p c = false := by
  induction l with
  | nil => simp
  | cons a t ih =>
    rw [List.dropWhile_cons]
    split
    · exact ih
    · next h => simpa using h

theorem dropWhile_id_of_head (p : Char → Bool) (l : Str)
    (h : ∀ c ∈ l.head?, p c = false) : l.dropWhile p = l := by
  cases l with
  | nil => rfl
  | cons a t => rw [List.dropWhile_cons]; simp [h a (by simp)]

theorem pyStrip_fixed (l : Str) (hh : HeadNotSpace l) (hl : LastNotSpace l) :
    pyStrip l = l := by
  unfold pyStrip
  rw [dropWhile_id_of_head _ _ hh]
  rw [dropWhile_id_of_head _ _ (by rw [List.head?_reverse]; exact hl)]
  exact List.reverse_reverse l

theorem noAdj_reverse (l : Str) (h : NoAdj l) : NoAdj l.reverse := by
  refine List.chain'_reverse.mpr (h.imp ?_)
  intro a b hab hba
  exact hab ⟨hba.2, hba.1⟩

theorem pyStrip_chain (l : Str) (h : NoAdj l) : NoAdj (pyStrip l) := by
  unfold pyStrip
  have h1 : NoAdj (l.dropWhile isSpaceChar) := h.suffix (List.dropWhile_suffix _)
  have h2 : NoAdj ((l.dropWhile isSpaceChar).reverse) := noAdj_reverse _ h1
  have h3 : NoAdj (((l.dropWhile isSpaceChar).reverse).dropWhile isSpaceChar) :=
    h2.suffix (List.dropWhile_suffix _)
  exact noAdj_reverse _ h3

theorem pyStrip_head (l : Str) : HeadNotSpace (pyStrip l) := by
  unfold pyStrip
  intro c hc
  rw [List.head?_reverse] at hc
  rcases List.dropWhile_suffix (l := (l.dropWhile isSpaceChar).reverse)
    (p := isSpaceChar) with ⟨t, ht⟩
  cases hyn : (l.dropWhile isSpaceChar).reverse.dropWhile isSpaceChar with
  | nil => rw [hyn] at hc; simp at hc
  | cons d r =>
    have hy' : ((l.dropWhile isSpaceChar).reverse.dropWhile isSpaceChar).getLast?
        = (l.dropWhile isSpaceChar).reverse.getLast? := by
      conv_rhs => rw [← ht]
      rw [List.getLast?_append_of_ne_nil t (by rw [hyn]; simp)]
    rw [hy', List.getLast?_reverse] at hc
    exact dropWhile_head_not isSpaceChar l c hc

theorem pyStrip_last (l : Str) : LastNotSpace (pyStrip l) := by
  unfold pyStrip
  intro c hc
  rw [List.getLast?_reverse] at hc
  exact dropWhile_head_not isSpaceChar _ c hc

theorem pyStrip_subset (l : Str) : ∀ c ∈ pyStrip l, c ∈ l := by
  intro c hc
  unfold pyStrip at hc
  rw [List.mem_reverse] at hc
  have h1 := (List.dropWhile_suffix (l := (l.dropWhile isSpaceChar).reverse)
    (p := isSpaceChar)).subset hc
  rw [List.mem_reverse] at h1
  exact (List.dropWhile_suffix (l := l) (p := isSpaceChar)).subset h1

/-! ## Normal forms and the C6 claim -/

/-- Normal form of the output of `normalize_text`: every character is fixed
by the character-level pipeline and is a word character or the plain space,
there are no consecutive whitespace characters, and neither end is
whitespace. -/
def NF (b : Bool) (u : Str) : Prop :=
  (∀ c ∈ u, pyLower c = c) ∧
  (b = true → ∀ c ∈ u, stripAccent c = c) ∧
  (∀ c ∈ u, isWordChar c = true ∨ c = ' ') ∧
  NoAdj u ∧ HeadNotSpace u ∧ LastNotSpace u

theorem punctToSpace_mem (s : Str) (c : Char) (hc : c ∈ punctToSpace s) :
    c = ' ' ∨ (c ∈ s ∧ (isWordChar c || isSpaceChar c) = true) := by
  unfold punctToSpace at hc
  rcases List.mem_map.mp hc with ⟨d, hd, hfd⟩
  by_cases h : isWordChar d || isSpaceChar d
  · rw [if_pos h] at hfd; subst hfd; exact Or.inr ⟨hd, h⟩
  · rw [if_neg h] at hfd; exact Or.inl hfd.symm

theorem normalize_text_NF (s : Str) (b : Bool) :
    NF b (normalize_text (some s) b) := by
  set s3 := if b then (((fixTextEncoding s).map pyLower).map stripAccent)
    else ((fixTextEncoding s).map pyLower) with hs3
  have hout : normalize_text (some s) b = pyStrip (collapseWs (punctToSpace s3)) := by
    rw [normalize_text, hs3]
  have hs3Lower : ∀ c ∈ s3, pyLower c = c := by
    intro c hc
    rw [hs3] at hc
    cases b with
    | true =>
      rw [if_pos rfl] at hc
      rcases List.mem_map.mp hc with ⟨d, hd, hdc⟩
      rcases List.mem_map.mp hd with ⟨e, _, hed⟩
      subst hdc; subst hed
      exact pyLower_stripAccent e
    | false =>
      rw [if_neg (by simp)] at hc
      rcases List.mem_map.mp hc with ⟨d, _, hdc⟩
      subst hdc
      exact pyLower_idem d
  have hs3Accent : b = true → ∀ c ∈ s3, stripAccent c = c := by
    intro hb c hc
    rw [hs3, hb] at hc
    rw [if_pos rfl] at hc
    rcases List.mem_map.mp hc with ⟨d, _, hdc⟩
    subst hdc
    exact stripAccent_idem d
  have hmem : ∀ c ∈ pyStrip (collapseWs (punctToSpace s3)),
      c = ' ' ∨ (c ∈ s3 ∧ isWordChar c = true) := by
    intro c hc
    have h1 := pyStrip_subset _ c hc
    rcases collapseWsAux_mem _ false c h1 with h2 | ⟨h2, h3⟩
    · exact Or.inl h2
    · rcases punctToSpace_mem s3 c h2 with h4 | ⟨h4, h5⟩
      · exact Or.inl h4
      · rcases Bool.or_eq_true_iff.mp h5 with h6 | h6
        · exact Or.inr ⟨h4, h6⟩
        · rw [h6] at h3; exact absurd h3 (by simp)
  rw [hout]
  refine ⟨?_, ?_, ?_, ?_, ?_, ?_⟩
  · intro c hc
    rcases hmem c hc with h | ⟨h, _⟩
    · subst h; exact pyLower_space
    · exact hs3Lower c h
  · intro hb c hc
    rcases hmem c hc with h | ⟨h, _⟩
    · subst h; exact stripAccent_space
    · exact hs3Accent hb c h
  · intro c hc
    rcases hmem c hc with h | ⟨_, h⟩
    · exact Or.inr h
    · exact Or.inl h
  · exact pyStrip_chain _ (collapseWsAux_chain _ false)
  · exact pyStrip_head _
  · exact pyStrip_last _

theorem map_id_of_fixed {α : Type} (f : α → α) (l : List α) (h : ∀ c ∈ l, f c = c) :
    l.map f = l := by
  induction l with
  | nil => rfl
  | cons a t ih =>
    simp only [List.map_cons, h a (by simp)]
    rw [ih (fun c hc => h c (by simp [hc]))]

theorem normalize_text_fixed (u : Str) (b : Bool) (h : NF b u) :
    normalize_text (some u) b = u := by
  obtain ⟨hLower, hAccent, hClass, hChain, hHead, hLast⟩ := h
  have hfix : fixTextEncoding u = u := rfl
  have hmap1 : u.map pyLower = u := map_id_of_fixed _ _ hLower
  have hs3 : (if b then ((fixTextEncoding u).map pyLower).map stripAccent
      else (fixTextEncoding u).map pyLower) = u := by
    cases b with
    | true =>
      rw [if_pos rfl]
      rw [hfix, hmap1, map_id_of_fixed _ _ (hAccent rfl)]
    | false => rw [if_neg (by simp)]; rw [hfix, hmap1]
  have hpunct : punctToSpace u = u := by
    apply map_id_of_fixed
    intro c hc
    rcases hClass c hc with h1 | h1
    · rw [if_pos (by simp [h1])]
    · subst h1; rw [if_pos (by decide)]
  have hplain : SpacesPlain u := by
    intro c hc hs
    rcases hClass c hc with h1 | h1
    · exact absurd h1 (by intro hw; exact word_space_disjoint c hs hw)
    · exact h1
  have hcoll : collapseWs u = u :=
    collapseWsAux_fixed u false hChain hplain (by simp)
  have hstrip : pyStrip u = u := pyStrip_fixed u hHead hLast
  rw [normalize_text, hs3, hpunct, hcoll, hstrip]

/-- C6.  `normalize_text` is idempotent, its output has no punctuation
characters (every character is a word character or the single plain space)
and no two consecutive whitespace characters, and a null/absent (non-string)
input yields the empty string. -/
theorem normalize_text_contract (t : Option Str) (b : Bool) :
    normalize_text (some (normalize_text t b)) b = normalize_text t b ∧
    (∀ c ∈ normalize_text t b, isWordChar c = true ∨ c = ' ') ∧
    NoAdj (normalize_text t b) ∧
    normalize_text none b = [] := by
  refine ⟨?_, ?_, ?_, rfl⟩
  · cases t with
    | none => cases b <;> rfl
    | some s => exact normalize_text_fixed _ b (normalize_text_NF s b)
  · cases t with
    | none => intro c hc; simp [normalize_text] at hc
    | some s => exact (normalize_text_NF s b).2.2.1
  · cases t with
    | none => simp [normalize_text, NoAdj]
    | some s => exact (normalize_text_NF s b).2.2.2.1

/-- Witness for C6 at a concrete input: the accented, punctuated name of the
scenario in the spec normalizes to its folded key, renormalizing is the
identity, and a concrete output character is a word character. -/
theorem normalize_text_contract_witness :
    normalize_text (some (normalize_text (some ('H' :: 'ô' :: 'p' :: '!' :: [])) true)) true
      = normalize_text (some ('H' :: 'ô' :: 'p' :: '!' :: [])) true ∧
    (isWordChar 'h' = true ∨ 'h' = ' ') := by
  refine ⟨(normalize_text_contract (some ('H' :: 'ô' :: 'p' :: '!' :: [])) true).1, ?_⟩
  exact (normalize_text_contract (some ('H' :: 'ô' :: 'p' :: '!' :: [])) true).2.1 'h' (by decide)

/-! ## Python float parsing and data cells

A pandas cell is a number, a string, or NaN/None (`none_`). -/

inductive Cell where
  | num (q : Rat)
  | str (s : Str)
  | none_
deriving DecidableEq

def allDigits (s : Str) : Bool := !s.isEmpty && s.all Char.isDigit

def digitsToNat (s : Str) : Nat := s.foldl (fun a c => a * 10 + (c.toNat - 48)) 0

/-- Magnitude part of Python `float(...)`: decimal digits with an optional
decimal point (`"2"`, `"2.5"`, `"2."`, `".5"`). -/
def pyFloatMag (r : Str) : Option Rat :=
  match r.splitOn '.' with
  | [ip] => if allDigits ip then some (digitsToNat ip) else none
  | [ip, fp] =>
    if (ip.all Char.isDigit && fp.all Char.isDigit) && !(ip.isEmpty && fp.isEmpty) then
      some ((digitsToNat ip : Rat) + (digitsToNat fp : Rat) / ((10 : Rat) ^ fp.length))
    else none
  | _ => none

/-- Python `float(s)`: surrounding whitespace is ignored, an optional sign
precedes the magnitude; any other shape raises `ValueError` (`none`). -/
def pyFloat (s : Str) : Option Rat :=
  match pyStrip s with
  | '+' :: r => pyFloatMag r
  | '-' :: r => (pyFloatMag r).map Neg.neg
  | r => pyFloatMag r

/-- Python `s.replace(',', '.')`. -/
def commaToDot (s : Str) : Str := s.map (fun c => if c = ',' then '.' else c)

/-! ## Duration (DMS) coercion -/

/-- Body of the DMS conversion in `DataUpdater._update_current_data`
(scheduler.py 570-599): a string containing `:` is split into hours and
minutes, otherwise it is parsed with comma-as-decimal tolerance; `None`
becomes `0`.  `none` models a raised exception inside the `try` block. -/
def convert_dms_core (x : Cell) : Option Rat :=
  match x with
  | .str s =>
    if s.contains ':' then
      match s.splitOn ':' with
      | [h, m] =>
        match pyFloat h, pyFloat m with
        | some hv, some mv => some (hv + mv / 60)
        | _, _ => none
      | _ => none
    else pyFloat (commaToDot s)
  | .num q => some q
  | .none_ => some 0

/-- Full DMS conversion of `_update_current_data`: an exception inside the
`try` block is caught, a warning is logged and the value falls back to 0. -/
def convert_dms (x : Cell) : Rat := (convert_dms_core x).getD 0

/-- Lambda applied to the `dms_civiere` / `dms_ambulatoire` columns in
`DataProcessor.process_urgences_data` (data_validation.py 423-426):
`float(str(x).replace(',', '.')) if isinstance(x, str) else x`.  A parse
failure is an uncaught `ValueError` (`Except.error`). -/
def process_dms_cell (x : Cell) : Except Unit Cell :=
  match x with
  | .str s =>
    match pyFloat (commaToDot s) with
    | some q => Except.ok (Cell.num q)
    | none => Except.error ()
  | c => Except.ok c

/-- `pd.to_numeric(col, errors=coerce)` on one cell. -/
def to_numeric_cell (x : Cell) : Cell :=
  match x with
  | .num q => .num q
  | .str s => match pyFloat s with | some q => .num q | none => .none_
  | .none_ => .none_

/-- `col.fillna(0)` on one cell. -/
def fillna0 (x : Cell) : Cell := match x with | .none_ => .num 0 | c => c

/-- Numeric processing of a DMS column in `process_urgences_data`
(data_validation.py 420-429): the comma-conversion lambda, then
`to_numeric(errors=coerce)`, then `fillna(0)`.  An exception in the
lambda propagates out of the whole processing step. -/
def process_dms_column (col : List Cell) : Except Unit (List Cell) :=
  (col.mapM process_dms_cell).map (fun l => l.map (fun x => fillna0 (to_numeric_cell x)))

/-- C7 (code bug).  The claim expects `"2:30"` to be coerced to 2.5 hours
and `"abc"` to 0 with a warning, the row being kept.  The scheduler
conversion in `_update_current_data` does behave that way, but every ingest
row passes through `DataProcessor.process_urgences_data` first, whose
comma-conversion lambda calls `float` on the raw string and raises
`ValueError` on both inputs, aborting the whole cycle instead of keeping
the row. -/
theorem dms_processing_raises :
    process_dms_column [Cell.str ('2' :: ':' :: '3' :: '0' :: [])] = Except.error () ∧
    process_dms_column [Cell.str ('a' :: 'b' :: 'c' :: [])] = Except.error () ∧
    convert_dms (Cell.str ('2' :: ':' :: '3' :: '0' :: [])) = 5/2 ∧
    convert_dms (Cell.str ('a' :: 'b' :: 'c' :: [])) = 0 ∧
    convert_dms (Cell.str ('2' :: ',' :: '5' :: [])) = 5/2 := by
  refine ⟨rfl, rfl, ?_, rfl, ?_⟩
  · show ((2 : Nat) : Rat) + ((30 : Nat) : Rat) / 60 = 5/2
    norm_num
  · show ((2 : Nat) : Rat) + ((5 : Nat) : Rat) / ((10 : Rat) ^ (1 : Nat)) = 5/2
    norm_num

/-! ## DataValidator.validate_numeric_range (data_validation.py 54-82) -/

/-- A data frame: the declared column names and the rows, each row an
association list from column name to cell. -/
structure Frame where
  columns : List Str
  rows : List (List (Str × Cell))
deriving DecidableEq

def getCell (r : List (Str × Cell)) (c : Str) : Cell :=
  (((r.find? (fun p => p.1 == c)).map Prod.snd).getD .none_)

def setCell (r : List (Str × Cell)) (c : Str) (v : Cell) : List (Str × Cell) :=
  r.map (fun p => if p.1 == c then (p.1, v) else p)

/-- Row mask of `validate_numeric_range`: after the in-place
`pd.to_numeric(..., errors=coerce)`, a row is kept when its value is
neither below `min_val`, above `max_val`, nor NaN. -/
def keepRow (column : Str) (minV maxV : Rat) (r : List (Str × Cell)) : Bool :=
  match getCell r column with
  | .num v => !(decide (v < minV) || decide (v > maxV))
  | _ => false

/-- Embedding of `DataValidator.validate_numeric_range`: a missing column
is logged and the frame returned unchanged; otherwise the column is coerced
to numeric in place and the rows outside `[min_val, max_val]` (or
non-numeric) are dropped. -/
def validate_numeric_range (df : Frame) (column : Str) (minV maxV : Rat) : Frame :=
  if column ∉ df.columns then df
  else
    let rows1 := df.rows.map (fun r => setCell r column (to_numeric_cell (getCell r column)))
    { df with rows := rows1.filter (keepRow column minV maxV) }

/-- Specification-side predicate (from the claim): the field value parses
as a number lying within `[min, max]`. -/
def cellInRange (x : Cell) (a b : Rat) : Bool :=
  match to_numeric_cell x with
  | .num v => decide (a ≤ v) && decide (v ≤ b)
  | _ => false

theorem getCell_cons_pos (p : Str × Cell) (t : List (Str × Cell)) (c : Str)
    (h : (p.1 == c) = true) : getCell (p :: t) c = p.2 := by
  unfold getCell
  rw [@List.find?_cons_of_pos (Str × Cell) (fun q => q.1 == c) p t h]
  rfl

theorem getCell_cons_neg (p : Str × Cell) (t : List (Str × Cell)) (c : Str)
    (h : (p.1 == c) = false) : getCell (p :: t) c = getCell t c := by
  unfold getCell
  rw [@List.find?_cons_of_neg (Str × Cell) (fun q => q.1 == c) p t (by simp [h])]

theorem setCell_cons (p : Str × Cell) (t : List (Str × Cell)) (c : Str) (v : Cell) :
    setCell (p :: t) c v = (if p.1 == c then (p.1, v) else p) :: setCell t c v := rfl

theorem getCell_set_tonum (r : List (Str × Cell)) (c : Str) :
    getCell (setCell r c (to_numeric_cell (getCell r c))) c =
      to_numeric_cell (getCell r c) := by
  induction r with
  | nil => rfl
  | cons p t ih =>
    by_cases h : (p.1 == c) = true
    · rw [getCell_cons_pos p t c h, setCell_cons, if_pos h,
        getCell_cons_pos (p.1, to_numeric_cell p.2) _ c (by simpa using h)]
    · have h' : (p.1 == c) = false := by simpa using h
      rw [getCell_cons_neg p t c h', setCell_cons, if_neg (by simp [h']),
        getCell_cons_neg p _ c h']
      exact ih

theorem filter_map_comm (f : List (Str × Cell) → List (Str × Cell))
    (p : List (Str × Cell) → Bool) (l : List (List (Str × Cell))) :
    (l.map f).filter p = (l.filter (fun r => p (f r))).map f := by
  induction l with
  | nil => rfl
  | cons a t ih =>
    simp only [List.map_cons, List.filter_cons]
    by_cases h : p (f a)
    · simp [h, ih]
    · simp [h, ih]

theorem keep_eq_inRange (c : Str) (a b : Rat) (r : List (Str × Cell)) :
    keepRow c a b (setCell r c (to_numeric_cell (getCell r c))) =
      cellInRange (getCell r c) a b := by
  rw [keepRow, getCell_set_tonum, cellInRange]
  cases to_numeric_cell (getCell r c) with
  | none_ => rfl
  | str s => rfl
  | num v =>
    show (!(decide (v < a) || decide (v > b))) = (decide (a ≤ v) && decide (v ≤ b))
    rcases lt_or_le v a with h | h
    · simp [h, not_le.mpr h]
    · rcases le_or_lt v b with h2 | h2
      · simp [not_lt.mpr h, not_lt.mpr h2, h, h2]
      · simp [h2, not_le.mpr h2]

/-- C8.  `validate_numeric_range` keeps exactly the rows whose field parses
to a number within `[min, max]` (each kept row with that field coerced in
place), and a missing column is a no-op returning every row unchanged,
without raising. -/
theorem validate_numeric_range_contract (df : Frame) (c : Str) (a b : Rat) :
    (c ∉ df.columns → validate_numeric_range df c a b = df) ∧
    (c ∈ df.columns →
      (validate_numeric_range df c a b).columns = df.columns ∧
      (validate_numeric_range df c a b).rows =
        (df.rows.filter (fun r => cellInRange (getCell r c) a b)).map
          (fun r => setCell r c (to_numeric_cell (getCell r c)))) := by
  constructor
  · intro h
    rw [validate_numeric_range, if_pos h]
  · intro h
    rw [validate_numeric_range, if_neg (by simpa using h)]
    refine ⟨rfl, ?_⟩
    show (df.rows.map _).filter _ = _
    rw [filter_map_comm]
    congr 1
    apply List.filter_congr
    intro r _
    exact keep_eq_inRange c a b r

/-- Witness for C8 at a concrete frame: with column `"v"` present and range
[0, 100], the numeric-in-range row survives (coerced) while the
non-numeric and out-of-range rows are dropped; with an absent column the
frame is unchanged. -/
theorem validate_numeric_range_contract_witness :
    (validate_numeric_range
        (Frame.mk [['v']]
          [[(['v'], Cell.str ('5' :: []))], [(['v'], Cell.str ('a' :: []))],
           [(['v'], Cell.num 150)]])
        ['v'] 0 100).rows = [[(['v'], Cell.num 5)]] ∧
    validate_numeric_range (Frame.mk [['v']] [[(['w'], Cell.num 3)]]) ['x'] 0 100 =
      Frame.mk [['v']] [[(['w'], Cell.num 3)]] := by
  constructor
  · rw [(validate_numeric_range_contract
      (Frame.mk [['v']]
        [[(['v'], Cell.str ('5' :: []))], [(['v'], Cell.str ('a' :: []))],
         [(['v'], Cell.num 150)]]) ['v'] 0 100).2 (by decide) |>.2]
    decide
  · exact (validate_numeric_range_contract
      (Frame.mk [['v']] [[(['w'], Cell.num 3)]]) ['x'] 0 100).1 (by decide)

/-! ## Data model (models.py) -/

/-- Row of the `regions` table. -/
structure RegionRec where
  id : Nat
  rss : Str
  nom : Str
  nom_normalise : Str
deriving DecidableEq

/-- Row of the `etablissements` table.  Nullable columns are `Option`. -/
structure Etab where
  id : Nat
  source_id : Option Str
  no_permis_installation : Option Str
  nom_etablissement : Str
  nom_etablissement_normalise : Str
  nom_installation : Option Str
  nom_installation_normalise : Option Str
  type : Option Str
  adresse : Option Str
  code_postal : Option Str
  ville : Option Str
  province : Option Str
  region_id : Option Nat
  point_geo : Option (Rat × Rat)
  date_maj : Nat
deriving DecidableEq

/-- Row of the `urgences_etat_actuel` table. -/
structure EtatActuel where
  etablissement_id : Nat
  civieres_fonctionnelles : Option Rat
  civieres_occupees : Option Rat
  patients_24h : Option Rat
  patients_48h : Option Rat
  total_patients : Option Rat
  patients_en_attente : Option Rat
  dms_civiere : Option Rat
  dms_ambulatoire : Option Rat
  taux_occupation : Option Rat
  date_extraction : Nat
  date_maj : Nat
  statut_validation : Option Str
deriving DecidableEq

/-- Row of the `urgences_historique` table (same shape plus its own id is
irrelevant to the claims). -/
structure Historique where
  etablissement_id : Nat
  civieres_fonctionnelles : Option Rat
  civieres_occupees : Option Rat
  patients_24h : Option Rat
  patients_48h : Option Rat
  total_patients : Option Rat
  patients_en_attente : Option Rat
  dms_civiere : Option Rat
  dms_ambulatoire : Option Rat
  taux_occupation : Option Rat
  date_extraction : Nat
  date_maj : Nat
  statut_validation : Option Str
deriving DecidableEq

/-- Database state.  Lists keep the underlying row order used by
`query(...).first()`; `nextEtabId` models the id sequence assigned at
`flush()`. -/
structure DB where
  regions : List RegionRec
  etabs : List Etab
  actuel : List EtatActuel
  historique : List Historique
  nextEtabId : Nat
deriving DecidableEq

/-- An ingest row as consumed by `_find_etablissement` and
`_update_current_data` after `process_urgences_data` (names raw, numeric
columns numeric-or-absent, DMS columns as cells, permit already
`astype(str)`). -/
structure URow where
  rss : Str
  region : Str
  nom_etablissement : Str
  nom_installation : Str
  no_permis_installation : Str
  civieres_fonctionnelles : Option Rat
  civieres_occupees : Option Rat
  patients_24h : Option Rat
  patients_48h : Option Rat
  total_patients : Option Rat
  patients_en_attente : Option Rat
  dms_civiere : Cell
  dms_ambulatoire : Cell
deriving DecidableEq

/-! ## Substring matching (SQL `ILIKE` with a percent-wrapped pattern on already-lowercased
normalized columns) -/

def startsWithStr : Str → Str → Bool
  | [], _ => true
  | _ :: _, [] => false
  | a :: as, b :: bs => a == b && startsWithStr as bs

/-- Containment of `n` in `h` as a contiguous substring. -/
def substrOf (n : Str) : Str → Bool
  | [] => startsWithStr n []
  | c :: t => startsWithStr n (c :: t) || substrOf n t

/-- Truthiness gate `if no_permis and no_permis.strip():` — the permit is
non-empty and contains a non-whitespace character. -/
def permitGate (s : Str) : Bool := !s.isEmpty && !(pyStrip s).isEmpty

/-- Normalized installation name of a row as computed inside
`_find_etablissement` (`fix_text_encoding` then `normalize_text` with
accents removed). -/
def rowInstN (row : URow) : Str := normalize_text (some (fixTextEncoding row.nom_installation)) true

def rowEtabN (row : URow) : Str := normalize_text (some (fixTextEncoding row.nom_etablissement)) true

/-! ## Region resolution (scheduler.py 440-478) -/

def find_region_id (db : DB) (rss : Str) (region_name : Str) : Option Nat :=
  let rss := pyStrip rss
  let r1 : Option RegionRec :=
    if !rss.isEmpty then db.regions.find? (fun r => r.rss == rss) else none
  let r2 : Option RegionRec :=
    match r1 with
    | some r => some r
    | none =>
      if !region_name.isEmpty then
        db.regions.find? (fun r => substrOf (normalize_text (some region_name) true) r.nom_normalise)
      else none
  let r3 : Option RegionRec :=
    match r2 with
    | some r => some r
    | none => db.regions.find? (fun r => r.rss == ('0' :: '6' :: []))
  let r4 : Option RegionRec :=
    match r3 with
    | some r => some r
    | none => db.regions.head?
  r4.map RegionRec.id

/-! ## ODHF reference catalog (scheduler.py 151-215, 480-506) -/

structure OdhfInfo where
  source_id : Option Str
  type : Str
  adresse : Str
  code_postal : Str
  ville : Str
  province : Str
  latitude : Option Rat
  longitude : Option Rat
deriving DecidableEq

/-- The catalog keyed by normalized facility name, iterated in insertion
order. -/
abbrev Catalog := List (Str × OdhfInfo)

def natToStr (n : Nat) : Str := Nat.toDigits 10 n

def strQuebec : Str := "Québec".toList
def strHopital : Str := "Hôpital".toList
def strACompleter : Str := "À compléter".toList
def strValide : Str := "validé".toList

/-- Default enrichment returned by `_get_etablissement_info` when no
catalog entry matches (scheduler.py 498-506). -/
def defaultOdhfInfo (now : Nat) (catalogLen : Nat) : OdhfInfo :=
  { source_id := some (('G' :: 'E' :: 'N' :: '-' :: []) ++ natToStr now ++
      ('-' :: []) ++ natToStr (catalogLen + 1)),
    type := strHopital, adresse := strACompleter, code_postal := [],
    ville := strACompleter, province := strQuebec,
    latitude := none, longitude := none }

/-- Embedding of `DataUpdater._get_etablissement_info` (scheduler.py
480-506): first catalog entry whose normalized key contains the (non-empty)
normalized installation or establishment name, else the defaults. -/
def get_etablissement_info (catalog : Catalog) (now : Nat)
    (nom_installation_norm nom_etablissement_norm : Str) : OdhfInfo :=
  match catalog.find? (fun p =>
      (!nom_installation_norm.isEmpty && substrOf nom_installation_norm p.1) ||
      (!nom_etablissement_norm.isEmpty && substrOf nom_etablissement_norm p.1)) with
  | some p => p.2
  | none => defaultOdhfInfo now catalog.length

/-! ## Province mapping (scheduler.py 64-94) -/

def provinceMapping : List (Str × Str) :=
  [("qc".toList, strQuebec), ("QC".toList, strQuebec), ("Qc".toList, strQuebec),
   ("quebec".toList, strQuebec), ("QUEBEC".toList, strQuebec),
   ("on".toList, "Ontario".toList), ("ON".toList, "Ontario".toList),
   ("bc".toList, "Colombie-Britannique".toList), ("BC".toList, "Colombie-Britannique".toList),
   ("ab".toList, "Alberta".toList), ("AB".toList, "Alberta".toList),
   ("mb".toList, "Manitoba".toList), ("MB".toList, "Manitoba".toList),
   ("sk".toList, "Saskatchewan".toList), ("SK".toList, "Saskatchewan".toList),
   ("ns".toList, "Nouvelle-Écosse".toList), ("NS".toList, "Nouvelle-Écosse".toList),
   ("nb".toList, "Nouveau-Brunswick".toList), ("NB".toList, "Nouveau-Brunswick".toList),
   ("nl".toList, "Terre-Neuve-et-Labrador".toList), ("NL".toList, "Terre-Neuve-et-Labrador".toList),
   ("pe".toList, "Île-du-Prince-Édouard".toList), ("PE".toList, "Île-du-Prince-Édouard".toList),
   ("yt".toList, "Yukon".toList), ("YT".toList, "Yukon".toList),
   ("nt".toList, "Territoires du Nord-Ouest".toList), ("NT".toList, "Territoires du Nord-Ouest".toList),
   ("nu".toList, "Nunavut".toList), ("NU".toList, "Nunavut".toList)]

def provinceLookup (key : Str) : Option Str :=
  (provinceMapping.find? (fun q => q.1 == key)).map Prod.snd

/-! ## Facility resolution, scheduler variant (scheduler.py 332-438) -/

/-- The `try` block of `DataUpdater._find_etablissement` (scheduler.py
358-375): (1) exact permit match when the permit is truthy and non-blank,
(2) substring match on the normalized installation name when non-empty,
(3) substring match on the normalized establishment name when non-empty;
each later step runs only if the previous left `etablissement` unset. -/
def search_etablissement (db : DB) (no_permis nom_installation_std nom_etablissement_std : Str) :
    Option Etab :=
  let e1 : Option Etab :=
    if permitGate no_permis then
      db.etabs.find? (fun e => e.no_permis_installation == some no_permis)
    else none
  let e2 : Option Etab :=
    match e1 with
    | some e => some e
    | none =>
      if !nom_installation_std.isEmpty then
        db.etabs.find? (fun e =>
          match e.nom_installation_normalise with
          | some h => substrOf nom_installation_std h
          | none => false)
      else none
  match e2 with
  | some e => some e
  | none =>
    if !nom_etablissement_std.isEmpty then
      db.etabs.find? (fun e => substrOf nom_etablissement_std e.nom_etablissement_normalise)
    else none

/-- Creation path of `_find_etablissement` (scheduler.py 384-430): region
fallback, ODHF enrichment, geographic point when both coordinates are
truthy and non-NaN, province standardization via a lowercased key, then the
new row is flushed with the next id. -/
def create_etablissement_sched (db : DB) (row : URow) (now : Nat) (catalog : Catalog) :
    Option Etab × DB :=
  let nom_installation_std := rowInstN row
  let nom_etablissement_std := rowEtabN row
  let region_id := find_region_id db row.rss row.region
  let info := get_etablissement_info catalog now nom_installation_std nom_etablissement_std
  let point_geo : Option (Rat × Rat) :=
    match info.latitude, info.longitude with
    | some lat, some lon => if lat ≠ 0 ∧ lon ≠ 0 then some (lon, lat) else none
    | _, _ => none
  let province :=
    match provinceLookup (info.province.map pyLower) with
    | some v => v
    | none => info.province
  let e : Etab :=
    { id := db.nextEtabId,
      source_id := some (info.source_id.getD
        (('S' :: 'R' :: 'C' :: '-' :: []) ++ natToStr now ++ ('-' :: []) ++ row.no_permis_installation)),
      no_permis_installation := some row.no_permis_installation,
      nom_etablissement := fixTextEncoding row.nom_etablissement,
      nom_etablissement_normalise := nom_etablissement_std,
      nom_installation := some (fixTextEncoding row.nom_installation),
      nom_installation_normalise := some nom_installation_std,
      type := some info.type,
      adresse := some info.adresse,
      code_postal := some info.code_postal,
      ville := some info.ville,
      province := some province,
      region_id := region_id,
      point_geo := point_geo,
      date_maj := now }
  (some e, { db with etabs := db.etabs ++ [e], nextEtabId := db.nextEtabId + 1 })

/-- Embedding of `DataUpdater._find_etablissement` (scheduler.py 332-438):
search cascade, then automatic creation when nothing matched. -/
def find_etablissement_sched (db : DB) (row : URow) (now : Nat) (catalog : Catalog) :
    Option Etab × DB :=
  match search_etablissement db row.no_permis_installation (rowInstN row) (rowEtabN row) with
  | some e => (some e, db)
  | none => create_etablissement_sched db row now catalog

/-! ## Facility resolution, standalone script variant (data_updater.py
280-364): the search has no permit step. -/

def search_etablissement_script (db : DB) (nom_installation_std nom_etablissement_std : Str) :
    Option Etab :=
  let e1 : Option Etab :=
    if !nom_installation_std.isEmpty then
      db.etabs.find? (fun e =>
        match e.nom_installation_normalise with
        | some h => substrOf nom_installation_std h
        | none => false)
    else none
  match e1 with
  | some e => some e
  | none =>
    if !nom_etablissement_std.isEmpty then
      db.etabs.find? (fun e => substrOf nom_etablissement_std e.nom_etablissement_normalise)
    else none

/-- Creation path of the script variant (data_updater.py 322-362): default
region (Montréal, else the first), minimal fields, flush. -/
def create_etablissement_script (db : DB) (row : URow) (now : Nat) : Option Etab × DB :=
  let region : Option RegionRec :=
    match db.regions.find? (fun r => r.rss == ('0' :: '6' :: [])) with
    | some r => some r
    | none => db.regions.head?
  let e : Etab :=
    { id := db.nextEtabId,
      source_id := none,
      no_permis_installation := none,
      nom_etablissement := fixTextEncoding row.nom_etablissement,
      nom_etablissement_normalise := rowEtabN row,
      nom_installation := some (fixTextEncoding row.nom_installation),
      nom_installation_normalise := some (rowInstN row),
      type := none, adresse := none, code_postal := none, ville := none,
      province := some strQuebec,
      region_id := region.map RegionRec.id,
      point_geo := none,
      date_maj := now }
  (some e, { db with etabs := db.etabs ++ [e], nextEtabId := db.nextEtabId + 1 })

def find_etablissement_script (db : DB) (row : URow) (now : Nat) : Option Etab × DB :=
  match search_etablissement_script db (rowInstN row) (rowEtabN row) with
  | some e => (some e, db)
  | none => create_etablissement_script db row now

/-! ## C2: the matching cascade -/

/-- Specification-side step 1 (from the claim): exact match on the permit
number, only when it is present and non-blank. -/
def specStepPermit (db : DB) (p : Str) : Option Etab :=
  if permitGate p then db.etabs.find? (fun e => e.no_permis_installation == some p) else none

/-- Specification-side step 2: substring match of the normalized
installation name, only when non-empty. -/
def specStepInstallation (db : DB) (iN : Str) : Option Etab :=
  if !iN.isEmpty then
    db.etabs.find? (fun e =>
      match e.nom_installation_normalise with
      | some h => substrOf iN h
      | none => false)
  else none

/-- Specification-side step 3: substring match of the normalized
establishment name, only when non-empty. -/
def specStepEtablissement (db : DB) (eN : Str) : Option Etab :=
  if !eN.isEmpty then
    db.etabs.find? (fun e => substrOf eN e.nom_etablissement_normalise)
  else none

/-- C2 (amended).  The scheduler resolver is exactly the three-step
cascade with first hit winning and each later step consulted only when
every earlier one found nothing; the standalone script resolver omits the
permit step and is the two-step cascade. -/
theorem cascade_structure (db : DB) (p iN eN : Str) :
    search_etablissement db p iN eN =
      ((specStepPermit db p).or ((specStepInstallation db iN).or
        (specStepEtablissement db eN))) ∧
    search_etablissement_script db iN eN =
      ((specStepInstallation db iN).or (specStepEtablissement db eN)) := by
  constructor
  · rw [search_etablissement, specStepPermit, specStepInstallation, specStepEtablissement]
    cases h1 : (if permitGate p then
        db.etabs.find? (fun e => e.no_permis_installation == some p) else none) with
    | some e => simp [Option.or]
    | none =>
      simp only [Option.or]
      cases h2 : (if !iN.isEmpty then
          db.etabs.find? (fun e =>
            match e.nom_installation_normalise with
            | some h => substrOf iN h
            | none => false) else none) with
      | some e => simp
      | none => simp
  · rw [search_etablissement_script, specStepInstallation, specStepEtablissement]
    cases h1 : (if !iN.isEmpty then
        db.etabs.find? (fun e =>
          match e.nom_installation_normalise with
          | some h => substrOf iN h
          | none => false) else none) with
    | some e => simp [Option.or]
    | none => simp [Option.or]

/-! ## Concrete fixtures -/

def baseEtab : Etab :=
  { id := 0, source_id := none, no_permis_installation := none,
    nom_etablissement := [], nom_etablissement_normalise := [],
    nom_installation := none, nom_installation_normalise := none,
    type := none, adresse := none, code_postal := none, ville := none,
    province := none, region_id := none, point_geo := none, date_maj := 0 }

def baseURow : URow :=
  { rss := [], region := [], nom_etablissement := [], nom_installation := [],
    no_permis_installation := [],
    civieres_fonctionnelles := none, civieres_occupees := none,
    patients_24h := none, patients_48h := none, total_patients := none,
    patients_en_attente := none,
    dms_civiere := Cell.none_, dms_ambulatoire := Cell.none_ }

def baseDB : DB :=
  { regions := [], etabs := [], actuel := [], historique := [], nextEtabId := 1 }

/-- Facility whose permit is `X1` but whose installation key is `aaa`. -/
def etabPermit : Etab :=
  { baseEtab with
    id := 1,
    no_permis_installation := some ('X' :: '1' :: []),
    nom_installation_normalise := some ('a' :: 'a' :: 'a' :: []) }

/-- Facility with a different permit but installation key `bbb`. -/
def etabName : Etab :=
  { baseEtab with
    id := 2,
    no_permis_installation := some ('z' :: 'z' :: []),
    nom_installation_normalise := some ('b' :: 'b' :: 'b' :: []) }

def dbTwoEtabs : DB := { baseDB with etabs := [etabPermit, etabName], nextEtabId := 3 }

/-- Row carrying permit `X1` and an installation name normalizing to `bbb`. -/
def rowPermitAndName : URow :=
  { baseURow with
    no_permis_installation := ('X' :: '1' :: []),
    nom_installation := ('b' :: 'b' :: 'b' :: []) }

/-- C2 (counterexample).  The claim says that for every ingest row the
resolution cascade tries the exact permit match first.  The standalone
script resolver (`scripts/data_updater.py _find_etablissement`) never
consults the permit: on a row whose permit exactly matches facility 1, it
resolves facility 2 via the installation-name step, while the scheduler
resolver resolves facility 1. -/
theorem cascade_counterexample :
    permitGate rowPermitAndName.no_permis_installation = true ∧
    (dbTwoEtabs.etabs.find? (fun e =>
        e.no_permis_installation == some rowPermitAndName.no_permis_installation)).map Etab.id
      = some 1 ∧
    ((find_etablissement_script dbTwoEtabs rowPermitAndName 0).1.map Etab.id = some 2) ∧
    ((find_etablissement_sched dbTwoEtabs rowPermitAndName 0 []).1.map Etab.id = some 1) := by
  refine ⟨by decide, by decide, by decide, by decide⟩

/-! ## C4: permit-number round trip (scheduler resolver) -/

theorem search_none_permit_find (db : DB) (p iN eN : Str)
    (hperm : permitGate p = true)
    (hnone : search_etablissement db p iN eN = none) :
    db.etabs.find? (fun e => e.no_permis_installation == some p) = none := by
  cases hf : db.etabs.find? (fun e => e.no_permis_installation == some p) with
  | none => rfl
  | some x =>
    rw [search_etablissement] at hnone
    simp [hperm, hf] at hnone

/-- C4.  A facility created from a row with a non-blank permit number is
found again, by the permit step, when an identical row is re-ingested: the
same facility id is returned and no second record is created. -/
theorem permit_roundtrip (db : DB) (row : URow) (t1 t2 : Nat) (catalog : Catalog)
    (hperm : permitGate row.no_permis_installation = true)
    (hnone : search_etablissement db row.no_permis_installation (rowInstN row) (rowEtabN row)
      = none) :
    ∃ e : Etab,
      (find_etablissement_sched db row t1 catalog).1 = some e ∧
      (find_etablissement_sched db row t1 catalog).2.etabs = db.etabs ++ [e] ∧
      e.no_permis_installation = some row.no_permis_installation ∧
      find_etablissement_sched (find_etablissement_sched db row t1 catalog).2 row t2 catalog
        = (some e, (find_etablissement_sched db row t1 catalog).2) := by
  have hfind := search_none_permit_find db row.no_permis_installation
    (rowInstN row) (rowEtabN row) hperm hnone
  obtain ⟨e, he1, he2, he3⟩ :
      ∃ e : Etab, (create_etablissement_sched db row t1 catalog).1 = some e ∧
        (create_etablissement_sched db row t1 catalog).2
          = { db with etabs := db.etabs ++ [e], nextEtabId := db.nextEtabId + 1 } ∧
        e.no_permis_installation = some row.no_permis_installation :=
    ⟨_, rfl, rfl, rfl⟩
  have hres : find_etablissement_sched db row t1 catalog
      = (create_etablissement_sched db row t1 catalog) := by
    rw [find_etablissement_sched, hnone]
  have hdb1 : (find_etablissement_sched db row t1 catalog).2.etabs = db.etabs ++ [e] := by
    rw [hres, he2]
  have hsearch2 : search_etablissement (find_etablissement_sched db row t1 catalog).2
      row.no_permis_installation (rowInstN row) (rowEtabN row) = some e := by
    rw [search_etablissement]
    have hstep1 : (find_etablissement_sched db row t1 catalog).2.etabs.find?
        (fun f => f.no_permis_installation == some row.no_permis_installation) = some e := by
      rw [hdb1, List.find?_append, hfind]
      simp [List.find?, he3]
    simp [hperm, hstep1]
  refine ⟨e, by rw [hres, he1], hdb1, he3, ?_⟩
  rw [find_etablissement_sched, hsearch2]

/-- Witness for C4: re-ingesting a row with permit `X123` into an empty
registry resolves to the facility created by the first ingestion, without
a second record. -/
theorem permit_roundtrip_witness :
    ∃ e : Etab,
      (find_etablissement_sched baseDB
        { baseURow with no_permis_installation := "X123".toList } 3 []).1 = some e ∧
      (find_etablissement_sched baseDB
        { baseURow with no_permis_installation := "X123".toList } 3 []).2.etabs
        = baseDB.etabs ++ [e] ∧
      e.no_permis_installation = some "X123".toList ∧
      find_etablissement_sched
        (find_etablissement_sched baseDB
          { baseURow with no_permis_installation := "X123".toList } 3 []).2
        { baseURow with no_permis_installation := "X123".toList } 4 []
        = (some e,
          (find_etablissement_sched baseDB
            { baseURow with no_permis_installation := "X123".toList } 3 []).2) :=
  permit_roundtrip baseDB { baseURow with no_permis_installation := "X123".toList } 3 4 []
    (by decide) (by decide)

/-! ## C10: rows with no permit and empty normalized names -/

/-- C10.  A row whose permit is blank and whose names normalize to the
empty string skips every step of the cascade, never matches, and creates a
fresh facility with empty normalized keys on each sighting: re-ingesting
the same nameless row yields a new facility id each time. -/
theorem nameless_duplicate (db : DB) (row : URow) (t1 t2 : Nat) (catalog : Catalog)
    (hperm : permitGate row.no_permis_installation = false)
    (hinst : rowInstN row = [])
    (hetab : rowEtabN row = []) :
    search_etablissement db row.no_permis_installation (rowInstN row) (rowEtabN row) = none ∧
    ∃ e1 e2 : Etab,
      (find_etablissement_sched db row t1 catalog).1 = some e1 ∧
      (find_etablissement_sched db row t1 catalog).2.etabs = db.etabs ++ [e1] ∧
      e1.id = db.nextEtabId ∧
      e1.nom_etablissement_normalise = [] ∧
      e1.nom_installation_normalise = some [] ∧
      (find_etablissement_sched (find_etablissement_sched db row t1 catalog).2 row t2 catalog).1
        = some e2 ∧
      (find_etablissement_sched
          (find_etablissement_sched db row t1 catalog).2 row t2 catalog).2.etabs
        = db.etabs ++ [e1] ++ [e2] ∧
      e2.id = db.nextEtabId + 1 ∧
      e1.id ≠ e2.id := by
  have hsearch : ∀ d : DB,
      search_etablissement d row.no_permis_installation (rowInstN row) (rowEtabN row) = none := by
    intro d
    rw [search_etablissement, hinst, hetab]
    simp [hperm]
  refine ⟨hsearch db, ?_⟩
  obtain ⟨e1, he1, he2, hid, hnn, hni⟩ :
      ∃ e1 : Etab, (create_etablissement_sched db row t1 catalog).1 = some e1 ∧
        (create_etablissement_sched db row t1 catalog).2
          = { db with etabs := db.etabs ++ [e1], nextEtabId := db.nextEtabId + 1 } ∧
        e1.id = db.nextEtabId ∧
        e1.nom_etablissement_normalise = rowEtabN row ∧
        e1.nom_installation_normalise = some (rowInstN row) :=
    ⟨_, rfl, rfl, rfl, rfl, rfl⟩
  have hres1 : find_etablissement_sched db row t1 catalog
      = create_etablissement_sched db row t1 catalog := by
    rw [find_etablissement_sched, hsearch db]
  obtain ⟨e2, hf1, hf2, hid2⟩ :
      ∃ e2 : Etab,
        (create_etablissement_sched (find_etablissement_sched db row t1 catalog).2
          row t2 catalog).1 = some e2 ∧
        (create_etablissement_sched (find_etablissement_sched db row t1 catalog).2
          row t2 catalog).2
          = { (find_etablissement_sched db row t1 catalog).2 with
              etabs := (find_etablissement_sched db row t1 catalog).2.etabs ++ [e2],
              nextEtabId := (find_etablissement_sched db row t1 catalog).2.nextEtabId + 1 } ∧
        e2.id = (find_etablissement_sched db row t1 catalog).2.nextEtabId :=
    ⟨_, rfl, rfl, rfl⟩
  have hres2 : find_etablissement_sched (find_etablissement_sched db row t1 catalog).2 row t2 catalog
      = create_etablissement_sched (find_etablissement_sched db row t1 catalog).2 row t2 catalog := by
    rw [find_etablissement_sched, hsearch _]
  have hnext1 : (find_etablissement_sched db row t1 catalog).2.nextEtabId
      = db.nextEtabId + 1 := by rw [hres1, he2]
  refine ⟨e1, e2, by rw [hres1, he1], by rw [hres1, he2], hid, by rw [hnn, hetab],
    by rw [hni, hinst], by rw [hres2, hf1], ?_, ?_, ?_⟩
  · rw [hres2, hf2]
    show (find_etablissement_sched db row t1 catalog).2.etabs ++ [e2] = _
    rw [hres1, he2]
  · rw [hid2, hnext1]
  · rw [hid, hid2, hnext1]
    exact Nat.ne_of_lt (Nat.lt_succ_self _)

/-- Witness for C10: the empty row ingested twice into the empty registry
creates facility 1 then facility 2. -/
theorem nameless_duplicate_witness :
    search_etablissement baseDB baseURow.no_permis_installation
      (rowInstN baseURow) (rowEtabN baseURow) = none ∧
    ∃ e1 e2 : Etab,
      (find_etablissement_sched baseDB baseURow 0 []).1 = some e1 ∧
      (find_etablissement_sched baseDB baseURow 0 []).2.etabs = baseDB.etabs ++ [e1] ∧
      e1.id = baseDB.nextEtabId ∧
      e1.nom_etablissement_normalise = [] ∧
      e1.nom_installation_normalise = some [] ∧
      (find_etablissement_sched (find_etablissement_sched baseDB baseURow 0 []).2
        baseURow 1 []).1 = some e2 ∧
      (find_etablissement_sched (find_etablissement_sched baseDB baseURow 0 []).2
        baseURow 1 []).2.etabs = baseDB.etabs ++ [e1] ++ [e2] ∧
      e2.id = baseDB.nextEtabId + 1 ∧
      e1.id ≠ e2.id :=
  nameless_duplicate baseDB baseURow 0 1 [] (by decide) (by decide) (by decide)

/-! ## Archival (scheduler.py 508-541, data_updater.py 366-402) -/

/-- Verbatim copy of a current state into a history row
(`_archive_current_data`, field by field). -/
def Historique.ofActuel (c : EtatActuel) : Historique :=
  { etablissement_id := c.etablissement_id,
    civieres_fonctionnelles := c.civieres_fonctionnelles,
    civieres_occupees := c.civieres_occupees,
    patients_24h := c.patients_24h,
    patients_48h := c.patients_48h,
    total_patients := c.total_patients,
    patients_en_attente := c.patients_en_attente,
    dms_civiere := c.dms_civiere,
    dms_ambulatoire := c.dms_ambulatoire,
    taux_occupation := c.taux_occupation,
    date_extraction := c.date_extraction,
    date_maj := c.date_maj,
    statut_validation := c.statut_validation }

def findActuel (db : DB) (eid : Nat) : Option EtatActuel :=
  db.actuel.find? (fun a => a.etablissement_id == eid)

/-- Embedding of the scheduler `_archive_current_data` (scheduler.py
508-541).  The whole body sits in a `try` whose `except` only logs;
`raised` models an exception thrown inside the body (the insert being the
last operation, a raise leaves the session without the history row), after
which control returns to the caller as if nothing happened. -/
def archive_current_data (db : DB) (eid : Nat) (raised : Bool) : DB :=
  if raised then db
  else
    match findActuel db eid with
    | some cur => { db with historique := db.historique ++ [Historique.ofActuel cur] }
    | none => db

/-! ## Current-state upsert -/

/-- Replacement of the first row with the given facility id (the source
mutates the object returned by `query(...).first()` in place). -/
def replaceFirstActuel (eid : Nat) (r : EtatActuel) : List EtatActuel → List EtatActuel
  | [] => []
  | a :: t => if a.etablissement_id == eid then r :: t else a :: replaceFirstActuel eid r t

/-- The query-then-mutate-or-add pattern of `_update_current_data`. -/
def upsert_actuel (db : DB) (r : EtatActuel) : DB :=
  if (findActuel db r.etablissement_id).isSome then
    { db with actuel := replaceFirstActuel r.etablissement_id r db.actuel }
  else { db with actuel := db.actuel ++ [r] }

/-- Embedding of the scheduler `_update_current_data` (scheduler.py
543-618): numeric fields default to 0 when absent, DMS strings are coerced
with H:MM and comma tolerance, the occupancy rate is
`occupied / functional * 100` when `functional` is truthy and positive and
0 otherwise, and the row is stamped with the extraction date, a refreshed
modification date and the validated status. -/
def update_current_data_sched (db : DB) (eid : Nat) (row : URow) (dext now : Nat) : DB :=
  let cf : Rat := (row.civieres_fonctionnelles).getD 0
  let co : Rat := (row.civieres_occupees).getD 0
  upsert_actuel db
    { etablissement_id := eid,
      civieres_fonctionnelles := some cf,
      civieres_occupees := some co,
      patients_24h := some ((row.patients_24h).getD 0),
      patients_48h := some ((row.patients_48h).getD 0),
      total_patients := some ((row.total_patients).getD 0),
      patients_en_attente := some ((row.patients_en_attente).getD 0),
      dms_civiere := some (convert_dms row.dms_civiere),
      dms_ambulatoire := some (convert_dms row.dms_ambulatoire),
      taux_occupation := some (if cf ≠ 0 ∧ cf > 0 then co / cf * 100 else 0),
      date_extraction := dext,
      date_maj := now,
      statut_validation := some strValide }

/-- Occupancy computation of the script `_update_current_data`
(data_updater.py 434-438): when `functional` is truthy and positive the
rate is computed (a `None` occupied count raises a `TypeError` that
propagates to the per-row handler), otherwise the stored rate is `None`. -/
def script_taux (cf co : Option Rat) : Except Unit (Option Rat) :=
  match cf with
  | some f =>
    if f ≠ 0 ∧ f > 0 then
      match co with
      | some o => Except.ok (some (o / f * 100))
      | none => Except.error ()
    else Except.ok none
  | none => Except.ok none

/-- Raw assignment of a processed cell into a nullable float column. -/
def cellOpt (x : Cell) : Option Rat :=
  match x with | .num q => some q | _ => none

/-- Embedding of the script `_update_current_data` (data_updater.py
404-447): fields are assigned directly from the row without defaulting,
and the taux fallback is `None`, not 0.  An exception from the taux
computation propagates (the caller then rolls the row back, so computing
it before the writes is observationally equivalent). -/
def update_current_data_script (db : DB) (eid : Nat) (row : URow) (dext now : Nat) :
    Except Unit DB :=
  match script_taux row.civieres_fonctionnelles row.civieres_occupees with
  | Except.error e => Except.error e
  | Except.ok taux =>
    Except.ok (upsert_actuel db
      { etablissement_id := eid,
        civieres_fonctionnelles := row.civieres_fonctionnelles,
        civieres_occupees := row.civieres_occupees,
        patients_24h := row.patients_24h,
        patients_48h := row.patients_48h,
        total_patients := row.total_patients,
        patients_en_attente := row.patients_en_attente,
        dms_civiere := cellOpt row.dms_civiere,
        dms_ambulatoire := cellOpt row.dms_ambulatoire,
        taux_occupation := taux,
        date_extraction := dext,
        date_maj := now,
        statut_validation := some strValide })

/-- One scheduler row application after resolution (scheduler.py 313-318):
archive the prior current state, then overwrite it. -/
def apply_measurement_sched (db : DB) (eid : Nat) (row : URow) (dext now : Nat)
    (archiveRaised : Bool) : DB :=
  update_current_data_sched (archive_current_data db eid archiveRaised) eid row dext now

/-! ## C3: occupancy -/

theorem findActuel_replaceFirst (l : List EtatActuel) (r : EtatActuel)
    (h : (l.find? (fun a => a.etablissement_id == r.etablissement_id)).isSome = true) :
    (replaceFirstActuel r.etablissement_id r l).find?
      (fun a => a.etablissement_id == r.etablissement_id) = some r := by
  induction l with
  | nil => simp [List.find?] at h
  | cons a t ih =>
    by_cases ha : (a.etablissement_id == r.etablissement_id) = true
    · rw [replaceFirstActuel, if_pos ha]
      simp [List.find?]
    · rw [replaceFirstActuel, if_neg ha]
      have ha' : (a.etablissement_id == r.etablissement_id) = false := by simpa using ha
      rw [List.find?] at h ⊢
      simp only [ha'] at h ⊢
      exact ih h

theorem findActuel_upsert (db : DB) (r : EtatActuel) :
    findActuel (upsert_actuel db r) r.etablissement_id = some r := by
  rw [upsert_actuel]
  by_cases h : (findActuel db r.etablissement_id).isSome = true
  · rw [if_pos h]
    exact findActuel_replaceFirst db.actuel r h
  · rw [if_neg h]
    show (db.actuel ++ [r]).find? _ = some r
    rw [List.find?_append]
    have hn : db.actuel.find? (fun a => a.etablissement_id == r.etablissement_id) = none := by
      cases hf : db.actuel.find? (fun a => a.etablissement_id == r.etablissement_id) with
      | none => rfl
      | some x => rw [findActuel, hf] at h; simp at h
    rw [hn]
    simp [List.find?, Option.or]

/-- C3 (amended).  For every scheduler current-state write the stored
occupancy is `occupied / functional * 100` when both operands are present
and `functional > 0`, and exactly 0 — never null, never stale — when
`functional` is 0 or either operand is absent. -/
theorem occupancy_sched_contract (db : DB) (eid : Nat) (row : URow) (dext now : Nat) :
    ∃ rec : EtatActuel,
      findActuel (update_current_data_sched db eid row dext now) eid = some rec ∧
      (∀ f o : Rat, row.civieres_fonctionnelles = some f → 0 < f →
        row.civieres_occupees = some o → rec.taux_occupation = some (o / f * 100)) ∧
      ((row.civieres_fonctionnelles = some 0 ∨ row.civieres_fonctionnelles = none ∨
        row.civieres_occupees = none) → rec.taux_occupation = some 0) := by
  refine ⟨_, findActuel_upsert db _, ?_, ?_⟩
  · intro f o hf hpos ho
    show some (if (row.civieres_fonctionnelles.getD 0 ≠ 0 ∧ row.civieres_fonctionnelles.getD 0 > 0)
        then row.civieres_occupees.getD 0 / row.civieres_fonctionnelles.getD 0 * 100 else 0)
      = some (o / f * 100)
    rw [hf, ho]
    simp only [Option.getD_some]
    rw [if_pos ⟨ne_of_gt hpos, hpos⟩]
  · intro h
    show some (if (row.civieres_fonctionnelles.getD 0 ≠ 0 ∧ row.civieres_fonctionnelles.getD 0 > 0)
        then row.civieres_occupees.getD 0 / row.civieres_fonctionnelles.getD 0 * 100 else 0)
      = some 0
    rcases h with h | h | h
    · rw [h]; simp
    · rw [h]; simp
    · rw [h]
      simp only [Option.getD_none]
      split
      · simp
      · rfl

/-- Row of the claim scenario: `functional = 0`, `occupied = 3`. -/
def rowZeroDiv : URow :=
  { baseURow with civieres_fonctionnelles := some 0, civieres_occupees := some 3 }

/-- Witness for C3: on the `functional = 0, occupied = 3` row the scheduler
writer records occupancy exactly 0 without a division error. -/
theorem occupancy_sched_contract_witness :
    ∃ rec : EtatActuel,
      findActuel (update_current_data_sched baseDB 1 rowZeroDiv 7 8) 1 = some rec ∧
      rec.taux_occupation = some 0 := by
  obtain ⟨rec, h1, _, h3⟩ := occupancy_sched_contract baseDB 1 rowZeroDiv 7 8
  exact ⟨rec, h1, h3 (Or.inl rfl)⟩

/-- Expected record written by the script variant on the zero-functional
row: the occupancy is stored as `None`. -/
def recZeroDivScript : EtatActuel :=
  { etablissement_id := 1,
    civieres_fonctionnelles := some 0,
    civieres_occupees := some 3,
    patients_24h := none, patients_48h := none, total_patients := none,
    patients_en_attente := none, dms_civiere := none, dms_ambulatoire := none,
    taux_occupation := none,
    date_extraction := 7, date_maj := 8, statut_validation := some strValide }

/-- C3 (counterexample).  The claim also cites the script writer
(`scripts/data_updater.py _update_current_data`), whose fallback stores a
null occupancy rather than 0: on `functional = 0, occupied = 3` the written
record has `taux_occupation = None`. -/
theorem occupancy_script_null :
    update_current_data_script baseDB 1 rowZeroDiv 7 8 =
      Except.ok { baseDB with actuel := [recZeroDivScript] } ∧
    recZeroDivScript.taux_occupation = none := by
  exact ⟨rfl, rfl⟩

/-! ## C1: archival before overwrite -/

/-- A populated current state used as the pre-overwrite snapshot. -/
def oldActuel : EtatActuel :=
  { etablissement_id := 1,
    civieres_fonctionnelles := some 10, civieres_occupees := some 7,
    patients_24h := some 1, patients_48h := some 0, total_patients := some 20,
    patients_en_attente := some 5, dms_civiere := some 8, dms_ambulatoire := some 4,
    taux_occupation := some 70,
    date_extraction := 100, date_maj := 101, statut_validation := some strValide }

def dbWithCurrent : DB := { baseDB with actuel := [oldActuel] }

def rowNewMeasurement : URow :=
  { baseURow with civieres_fonctionnelles := some 12, civieres_occupees := some 6 }

/-- General good path of the archive step: when the body raises nothing and
a current state exists, a verbatim copy is appended to the history before
the overwrite. -/
theorem archive_inserts_verbatim_copy (db : DB) (eid : Nat) (cur : EtatActuel)
    (h : findActuel db eid = some cur) :
    (archive_current_data db eid false).historique
      = db.historique ++ [Historique.ofActuel cur] := by
  rw [archive_current_data, if_neg (by simp), h]

theorem archive_inserts_verbatim_copy_witness :
    (archive_current_data dbWithCurrent 1 false).historique
      = dbWithCurrent.historique ++ [Historique.ofActuel oldActuel] :=
  archive_inserts_verbatim_copy dbWithCurrent 1 oldActuel (by decide)

/-- C1 (code bug).  When the archive body raises, the scheduler only logs
(`except` at scheduler.py 540-541) and the caller still overwrites the
current state: the history gains no row while the snapshot values are
replaced — partial archival, the one violation the spec forbids.  The
first conjunct shows the no-fault path does archive a verbatim copy. -/
theorem archive_swallows_failure :
    (apply_measurement_sched dbWithCurrent 1 rowNewMeasurement 200 201 false).historique
      = [Historique.ofActuel oldActuel] ∧
    (apply_measurement_sched dbWithCurrent 1 rowNewMeasurement 200 201 true).historique = [] ∧
    ((findActuel (apply_measurement_sched dbWithCurrent 1 rowNewMeasurement 200 201 true) 1).map
      EtatActuel.civieres_fonctionnelles) = some (some 12) ∧
    oldActuel.civieres_fonctionnelles = some 10 := by
  refine ⟨by decide, by decide, by decide, rfl⟩

/-! ## C5: per-row isolation in the script batch loop (data_updater.py
238-278)

The loop wraps each row in `try/except`; the handler calls `db.rollback()`
and continues.  The session commits once, after the loop, so `rollback()`
resets the session to the state at the start of the cycle (the last
committed state); the final `commit()` publishes whatever the fold reaches. -/

/-- Processing of one row in the script `_update_database` loop: resolve,
archive, overwrite.  `rowRaises` models a persistence failure raised while
processing this row (the script helpers re-raise). -/
def process_row_script (db : DB) (row : URow) (dext now : Nat) (rowRaises : Bool) :
    Except Unit DB :=
  if rowRaises then Except.error ()
  else
    match find_etablissement_script db row now with
    | (some e, db1) =>
      update_current_data_script (archive_current_data db1 e.id false) e.id row dext now
    | (none, db1) => Except.ok db1

/-- Embedding of the script `_update_database`: fold over the rows, a
failing row resetting the session to the cycle-start state `db0`; the
result is the state the single end-of-cycle commit publishes. -/
def update_database_script (db0 : DB) (rows : List (URow × Bool)) (dext now : Nat) : DB :=
  rows.foldl (fun s r =>
    match process_row_script s r.1 dext now r.2 with
    | Except.ok s2 => s2
    | Except.error _ => db0) db0

/-- Registry containing only the facility with installation key `bbb`. -/
def dbOneEtab : DB := { baseDB with etabs := [etabName], nextEtabId := 3 }

/-- Row resolving to that facility by installation-name substring. -/
def rowMatchingName : URow := { baseURow with nom_installation := ('b' :: 'b' :: 'b' :: []) }

/-- C5 (code bug).  The claim says each row commits its own unit of work
and a later row failure leaves earlier rows applied.  In the code a single
commit ends the cycle and the per-row handler calls `db.rollback()`:
processing the good row alone writes one current-state record, but when a
failing row follows, the rollback discards the uncommitted write of the good row
and the cycle commits the start state — the changes of the earlier row
are lost. -/
theorem batch_rollback_loses_rows :
    (update_database_script dbOneEtab [(rowMatchingName, false)] 0 1).actuel.length = 1 ∧
    update_database_script dbOneEtab [(rowMatchingName, false), (baseURow, true)] 0 1
      = dbOneEtab ∧
    (update_database_script dbOneEtab
      [(rowMatchingName, false), (baseURow, true)] 0 1).actuel.length = 0 := by
  refine ⟨by decide, by decide, by decide⟩

/-! ## C9: the null backfill job (`fix_null_values`, scheduler.py 620-716) -/

def etabSelected (e : Etab) : Bool :=
  e.adresse.isNone || e.ville.isNone || e.type.isNone || e.source_id.isNone

def genFixSourceId (now : Nat) (id : Nat) : Str :=
  ('G' :: 'E' :: 'N' :: '-' :: []) ++ natToStr now ++ ('-' :: []) ++ natToStr id

/-- Per-facility body of `fix_null_values` (scheduler.py 638-673): ODHF
lookup on the stored normalized names (empty when null), null fields
filled, then the province standardized through the raw-keyed mapping —
also when it was already present — then the geographic point filled when
absent, and the modification date refreshed. -/
def fix_etab (catalog : Catalog) (now : Nat) (e : Etab) : Etab :=
  let info := get_etablissement_info catalog now
    (e.nom_installation_normalise.getD []) e.nom_etablissement_normalise
  let e1 :=
    { e with
      adresse := some (e.adresse.getD info.adresse),
      ville := some (e.ville.getD info.ville),
      type := some (e.type.getD info.type),
      code_postal := some (e.code_postal.getD info.code_postal),
      province := some (e.province.getD strQuebec),
      source_id := some (e.source_id.getD (info.source_id.getD (genFixSourceId now e.id))) }
  let e2 :=
    { e1 with
      province := match e1.province with
        | some p => some ((provinceLookup p).getD p)
        | none => none }
  let e3 :=
    { e2 with
      point_geo := match e2.point_geo with
        | some g => some g
        | none =>
          match info.latitude, info.longitude with
          | some lat, some lon => if lat ≠ 0 ∧ lon ≠ 0 then some (lon, lat) else none
          | _, _ => none }
  { e3 with date_maj := now }

def urgSelected (u : EtatActuel) : Bool :=
  u.dms_civiere.isNone || u.dms_ambulatoire.isNone || u.total_patients.isNone ||
    u.patients_en_attente.isNone || u.taux_occupation.isNone

/-- Per-snapshot body of `fix_null_values` (scheduler.py 686-704): null
numeric fields become 0, a null occupancy is recomputed from the stored
counts when possible, the modification date is refreshed. -/
def fix_urg (now : Nat) (u : EtatActuel) : EtatActuel :=
  { u with
    dms_civiere := some (u.dms_civiere.getD 0),
    dms_ambulatoire := some (u.dms_ambulatoire.getD 0),
    total_patients := some (u.total_patients.getD 0),
    patients_en_attente := some (u.patients_en_attente.getD 0),
    taux_occupation := some (u.taux_occupation.getD
      (match u.civieres_fonctionnelles, u.civieres_occupees with
        | some f, some o => if f ≠ 0 ∧ f > 0 then o / f * 100 else 0
        | _, _ => 0)),
    date_maj := now }

/-- Embedding of `DataUpdater.fix_null_values` (scheduler.py 620-716):
each selected facility and each selected snapshot is rewritten in place. -/
def fix_null_values_sched (db : DB) (catalog : Catalog) (now : Nat) : DB :=
  { db with
    etabs := db.etabs.map (fun e => if etabSelected e then fix_etab catalog now e else e),
    actuel := db.actuel.map (fun u => if urgSelected u then fix_urg now u else u) }

/-- Facility with a null address (so it is selected) and a present
abbreviated province. -/
def etabProvQc : Etab :=
  { baseEtab with
    id := 1,
    province := some ("qc".toList),
    ville := some strACompleter,
    type := some strHopital,
    source_id := some ('S' :: []),
    adresse := none }

/-- C9 (counterexample).  The claim says a field holding a present value is
never overwritten with a different value.  On a selected facility whose
province is the present value `"qc"`, `fix_null_values` rewrites it to
`"Québec"` through the province mapping. -/
theorem backfill_overwrites_province :
    etabProvQc.province = some ("qc".toList) ∧
    ((fix_null_values_sched { baseDB with etabs := [etabProvQc] } [] 5).etabs.map
      Etab.province) = [some strQuebec] ∧
    (some strQuebec : Option Str) ≠ some ("qc".toList) := by
  refine ⟨rfl, by decide, by decide⟩

theorem fix_etab_not_selected (catalog : Catalog) (now : Nat) (e : Etab) :
    etabSelected (fix_etab catalog now e) = false := by
  rw [fix_etab, etabSelected]
  simp

theorem fix_urg_not_selected (now : Nat) (u : EtatActuel) :
    urgSelected (fix_urg now u) = false := by
  rw [fix_urg, urgSelected]
  simp

/-- C9 (amended).  The backfill job fills exactly the null fields of the
selected rows — every present value of a data field survives, with the
single exception of a present province that is a key of the province
mapping, which is standardized to the mapped value (and the refreshed
modification date) — and the job is idempotent: a second run selects no
row and returns the state unchanged. -/
theorem backfill_contract (catalog : Catalog) (now t2 : Nat) :
    (∀ e : Etab, ∀ v : Str,
      (e.adresse = some v → (fix_etab catalog now e).adresse = some v) ∧
      (e.ville = some v → (fix_etab catalog now e).ville = some v) ∧
      (e.type = some v → (fix_etab catalog now e).type = some v) ∧
      (e.code_postal = some v → (fix_etab catalog now e).code_postal = some v) ∧
      (e.source_id = some v → (fix_etab catalog now e).source_id = some v) ∧
      (e.province = some v →
        (fix_etab catalog now e).province = some ((provinceLookup v).getD v))) ∧
    (∀ e : Etab, ∀ g : Rat × Rat,
      e.point_geo = some g → (fix_etab catalog now e).point_geo = some g) ∧
    (∀ e : Etab,
      ((fix_etab catalog now e).adresse.isSome ∧ (fix_etab catalog now e).ville.isSome ∧
       (fix_etab catalog now e).type.isSome ∧ (fix_etab catalog now e).source_id.isSome)) ∧
    (∀ u : EtatActuel, ∀ q : Rat,
      (u.dms_civiere = some q → (fix_urg now u).dms_civiere = some q) ∧
      (u.dms_ambulatoire = some q → (fix_urg now u).dms_ambulatoire = some q) ∧
      (u.total_patients = some q → (fix_urg now u).total_patients = some q) ∧
      (u.patients_en_attente = some q → (fix_urg now u).patients_en_attente = some q) ∧
      (u.taux_occupation = some q → (fix_urg now u).taux_occupation = some q) ∧
      (u.civieres_fonctionnelles = some q → (fix_urg now u).civieres_fonctionnelles = some q) ∧
      (u.civieres_occupees = some q → (fix_urg now u).civieres_occupees = some q)) ∧
    (∀ db : DB,
      fix_null_values_sched (fix_null_values_sched db catalog now) catalog t2
        = fix_null_values_sched db catalog now) := by
  refine ⟨?_, ?_, ?_, ?_, ?_⟩
  · intro e v
    refine ⟨fun h => ?_, fun h => ?_, fun h => ?_, fun h => ?_, fun h => ?_, fun h => ?_⟩
    all_goals rw [fix_etab]
    all_goals simp only [h, Option.getD_some]
  · intro e g h
    rw [fix_etab]
    simp only [h]
  · intro e
    rw [fix_etab]
    simp
  · intro u q
    refine ⟨fun h => ?_, fun h => ?_, fun h => ?_, fun h => ?_, fun h => ?_,
      fun h => ?_, fun h => ?_⟩
    all_goals rw [fix_urg]
    all_goals simp only [h, Option.getD_some]
  · intro db
    rw [fix_null_values_sched, fix_null_values_sched]
    have he : ((db.etabs.map (fun e => if etabSelected e then fix_etab catalog now e else e)).map
        (fun e => if etabSelected e then fix_etab catalog t2 e else e))
        = db.etabs.map (fun e => if etabSelected e then fix_etab catalog now e else e) := by
      apply map_id_of_fixed
      intro x hx
      rcases List.mem_map.mp hx with ⟨e, _, hex⟩
      by_cases hs : etabSelected e = true
      · rw [if_pos hs] at hex
        rw [← hex, if_neg (by simp [fix_etab_not_selected catalog now e])]
      · rw [if_neg hs] at hex
        rw [← hex, if_neg hs]
    have hu : ((db.actuel.map (fun u => if urgSelected u then fix_urg now u else u)).map
        (fun u => if urgSelected u then fix_urg t2 u else u))
        = db.actuel.map (fun u => if urgSelected u then fix_urg now u else u) := by
      apply map_id_of_fixed
      intro x hx
      rcases List.mem_map.mp hx with ⟨u, _, hux⟩
      by_cases hs : urgSelected u = true
      · rw [if_pos hs] at hux
        rw [← hux, if_neg (by simp [fix_urg_not_selected now u])]
      · rw [if_neg hs] at hux
        rw [← hux, if_neg hs]
    rw [he, hu]

/-- Witness for C9: a present ville on the selected facility is preserved,
and two successive runs on a concrete state coincide with one run. -/
theorem backfill_contract_witness :
    (fix_etab [] 5 etabProvQc).ville = some strACompleter ∧
    fix_null_values_sched (fix_null_values_sched { baseDB with etabs := [etabProvQc] } [] 5) [] 6
      = fix_null_values_sched { baseDB with etabs := [etabProvQc] } [] 5 := by
  refine ⟨((backfill_contract [] 5 6).1 etabProvQc strACompleter).2.1 rfl, ?_⟩
  exact (backfill_contract [] 5 6).2.2.2.2 { baseDB with etabs := [etabProvQc] }

end SanteExpress
